import Mathlib

/-!
Verification of the project-state reconciliation engine of the
flutter_autonomous_builder_bot repository.

The Python sources are shallowly embedded here.  Python strings are modelled
as Lean `String`s, with all character-level work (slicing, searching,
stripping, splitting) carried out on the underlying `List Char`, because the
byte-position based `String` primitives of core Lean do not reduce in the
kernel.  Python dicts that are used as string-keyed maps are modelled as
association lists (`List (String × String)` etc.) with Python's access
semantics (`get` with default, membership test, assignment).  External
collaborators (the text-generation service, the `dart analyze` subprocess,
`json.loads`) are modelled as explicit oracle parameters, and a Python call
that may raise is modelled with `Option`/an explicit error component.
-/

namespace FlutterBot

/-! ## Character-level utilities (Python string primitives) -/

/-- Python whitespace for `str.strip()` / regex `\s` (ASCII part):
space, tab, newline, carriage return, vertical tab, form feed. -/
def isPyWs (c : Char) : Bool :=
  c = ' ' || c = '\t' || c = '\n' || c = '\r' || c = '\x0b' || c = '\x0c'

/-- Python `s.strip()` on the character list. -/
def pyStripL (s : List Char) : List Char :=
  ((s.dropWhile isPyWs).reverse.dropWhile isPyWs).reverse

/-- Python `s.strip()` at `String` level. -/
def pyStrip (s : String) : String := String.mk (pyStripL s.toList)

/-- Python substring test `pat in s` (`containsSubAux pat s`). -/
def containsSubAux (pat : List Char) : List Char → Bool
  | [] => pat.isEmpty
  | c :: rest => pat.isPrefixOf (c :: rest) || containsSubAux pat rest

/-- Python `pat in s` with the operands in reading order (`pat` inside `s`). -/
def containsL (s pat : List Char) : Bool := containsSubAux pat s

/-- Python `pat in s` at `String` level. -/
def containsStr (s pat : String) : Bool := containsL s.toList pat.toList

/-- First index at which `pat` occurs in the scanned list, counting from `i`. -/
def firstIdxFrom (pat : List Char) : List Char → Nat → Option Nat
  | [], i => if pat.isEmpty then some i else none
  | c :: rest, i =>
    if pat.isPrefixOf (c :: rest) then some i else firstIdxFrom pat rest (i + 1)

/-- First index of an occurrence of `pat` in `s` (`s.find(pat)` before the
`-1` encoding). -/
def firstIdx (pat s : List Char) : Option Nat := firstIdxFrom pat s 0

/-- Python `s.find(pat)`: first occurrence index, `-1` when absent. -/
def pyFindL (s pat : List Char) : Int :=
  match firstIdx pat s with
  | some n => (n : Int)
  | none => -1

/-- Last index at which `pat` occurs, scanning with an accumulator. -/
def lastIdxFrom (pat : List Char) : List Char → Nat → Option Nat → Option Nat
  | [], i, acc => if pat.isEmpty then some i else acc
  | c :: rest, i, acc =>
    lastIdxFrom pat rest (i + 1) (if pat.isPrefixOf (c :: rest) then some i else acc)

/-- Python `s.rfind(pat)`: last occurrence index, `-1` when absent. -/
def pyRFindL (s pat : List Char) : Int :=
  match lastIdxFrom pat s 0 none with
  | some n => (n : Int)
  | none => -1

/-- Python slice `s[a:b]` with the clamping and negative-index semantics of
CPython. -/
def pySliceL (s : List Char) (a b : Int) : List Char :=
  let n : Int := (s.length : Int)
  let lo : Int := if a < 0 then max (a + n) 0 else min a n
  let hi : Int := if b < 0 then max (b + n) 0 else min b n
  (s.take hi.toNat).drop lo.toNat

/-- Python `s.split(sep)` for a non-empty separator `pat` (fuel-driven scan;
the fuel `s.length + 1` always suffices because every separator occurrence
consumes at least one character). -/
def splitOnLFuel (pat : List Char) : Nat → List Char → List (List Char)
  | 0, s => [s]
  | fuel + 1, s =>
    match firstIdx pat s with
    | none => [s]
    | some i => s.take i :: splitOnLFuel pat fuel (s.drop (i + pat.length))

/-- Python `s.split(sep)` on character lists (our separators are never empty,
where CPython would raise `ValueError`). -/
def splitOnL (pat s : List Char) : List (List Char) :=
  if pat.isEmpty then [s] else splitOnLFuel pat (s.length + 1) s

/-- Python `s.replace(a, b)`, i.e. `b.join(s.split(a))`. -/
def replaceL (s pat repl : List Char) : List Char :=
  List.intercalate repl (splitOnL pat s)

/-- Python lexicographic string comparison `a <= b` on code points. -/
def lexLe : List Char → List Char → Bool
  | [], _ => true
  | _ :: _, [] => false
  | a :: as, b :: bs =>
    if a.toNat < b.toNat then true
    else if b.toNat < a.toNat then false
    else lexLe as bs

/-- Stable insertion of `a` into an already sorted list: `a` is placed after
every element `b` with `b <= a`, matching the stability of Python `sorted`. -/
def insertSorted (a : List Char) : List (List Char) → List (List Char)
  | [] => [a]
  | b :: bs => if lexLe b a then b :: insertSorted a bs else a :: b :: bs

/-- Python `sorted` on a list of strings: stable sort, ascending
lexicographic order (insertion sort; any stable sort agrees with CPython's
timsort for this total preorder). -/
def pySorted (l : List (List Char)) : List (List Char) :=
  l.foldl (fun acc a => insertSorted a acc) []

/-- Python suffix test `s.endswith(pat)`. -/
def isSuffixL (s pat : List Char) : Bool := pat.reverse.isPrefixOf s.reverse

/-! ## Association-list model of Python string-keyed dicts -/

/-- Python `d.get(k, default)`. -/
def getFileD (files : List (String × String)) (k d : String) : String :=
  match files.find? (fun p => p.1 == k) with
  | some p => p.2
  | none => d

/-- Python `d[k] = v`: replace in place when the key exists, append
otherwise (insertion order preserved, as for CPython dicts). -/
def setKey (files : List (String × String)) (k v : String) : List (String × String) :=
  if files.any (fun p => p.1 == k) then
    files.map (fun p => if p.1 == k then (k, v) else p)
  else files ++ [(k, v)]

/-! ## Structural validator (`flutter_project_validator.py`)

`validate_dart_code` shells out to `dart analyze` and classifies the
diagnostics; it is modelled as a boolean oracle `validate`.  `fix_dart_code`
sends the invalid content to the text-generation collaborator; the
collaborator's reply (or its raising an exception) is the oracle `fixResp`. -/

/-- Embedding of `FlutterProjectValidator.fix_dart_code`: strip the reply,
drop markdown code-block markers, strip again; on an exception from the
collaborator return the invalid code unchanged. -/
def fix_dart_code (fixResp : Option String) (invalid_code : String) : String :=
  match fixResp with
  | some resp =>
    String.mk (pyStripL (replaceL (replaceL (pyStripL resp.toList)
      "```dart".toList []) "```".toList []))
  | none => invalid_code

/-- Embedding of `FlutterProjectValidator.validate_and_fix_dart_code`.
`skip` is the `SKIP_DART_ANALYSIS` configuration flag, `validate` the
structural-checker oracle, `fixResp` the repair collaborator's reply.  The
`file_path` argument only feeds log messages in the source. -/
def validate_and_fix_dart_code (skip : Bool) (validate : String → Bool)
    (fixResp : Option String) (content : String) (file_path : String) : String :=
  if skip then content
  else if !validate content then
    let fixed_content := fix_dart_code fixResp content
    if validate fixed_content then fixed_content else content
  else content

/-! ## Task planner (`task_planning.py`)

`TaskPlanner.validate_task_plan` receives the raw JSON object decoded from
the model's reply, so it is embedded over a JSON value type.
`TaskPlanner._simplify_plan` is only ever applied to plans that passed
validation and dereferences the step/update fields directly, so it is
embedded over a typed plan record whose fields mirror the dict keys. -/

/-- JSON values as produced by `json.loads`. -/
inductive JVal where
  | null
  | bool (b : Bool)
  | num (n : Int)
  | str (s : String)
  | arr (elems : List JVal)
  | obj (fields : List (String × JVal))

/-- Python dict lookup `d[k]` / `k in d` on a decoded JSON object. -/
def jLookup (fields : List (String × JVal)) (k : String) : Option JVal :=
  (fields.find? (fun p => p.1 == k)).map (fun p => p.2)

/-- Embedding of `TaskPlanner.validate_task_plan`: requires the three keys,
a non-empty list under `steps`, a dict under `update_main_dart` and a list
under `dependencies`.  The source performs no per-step checks. -/
def validate_task_plan (task_plan : List (String × JVal)) : Bool :=
  (["steps", "update_main_dart", "dependencies"].all
      (fun key => (jLookup task_plan key).isSome)) &&
  (match jLookup task_plan "steps" with
   | some (JVal.arr l) => !l.isEmpty
   | _ => false) &&
  (match jLookup task_plan "update_main_dart" with
   | some (JVal.obj _) => true
   | _ => false) &&
  (match jLookup task_plan "dependencies" with
   | some (JVal.arr _) => true
   | _ => false)

/-- Well-formedness of a single plan step as asserted by the specification:
`type` in the three file operations, non-empty `file_path`, non-empty
`description`. -/
def stepWellFormed (j : JVal) : Bool :=
  match j with
  | JVal.obj f =>
    (match jLookup f "type" with
     | some (JVal.str t) =>
         t == "create_file" || t == "update_file" || t == "delete_file"
     | _ => false) &&
    (match jLookup f "file_path" with
     | some (JVal.str p) => p != ""
     | _ => false) &&
    (match jLookup f "description" with
     | some (JVal.str d) => d != ""
     | _ => false)
  | _ => false

/-- All entries of the plan's `steps` list are well-formed steps. -/
def planStepsWellFormed (task_plan : List (String × JVal)) : Bool :=
  match jLookup task_plan "steps" with
  | some (JVal.arr l) => l.all stepWellFormed
  | _ => false

/-- A plan whose single step has `type` `"rename_file"` and no `file_path`
or `description` at all. -/
def c1Plan : List (String × JVal) :=
  [("steps", JVal.arr [JVal.obj [("type", JVal.str "rename_file")]]),
   ("update_main_dart", JVal.obj []),
   ("dependencies", JVal.arr [])]

/-! Typed plan shape for the simplifier. -/

structure PlanStep where
  type : String
  file_path : String
  description : String
deriving DecidableEq

structure Dependency where
  package_name : Option String
  version : Option String
deriving DecidableEq

structure MainDartUpdates where
  imports_to_add : List String
  routes_to_add : List (String × String)
  initial_route : Option String
  providers_to_initialize : List String
deriving DecidableEq

structure TaskPlanShape where
  steps : List PlanStep
  update_main_dart : MainDartUpdates
  dependencies : List Dependency
deriving DecidableEq

/-- Python truthiness of an optional string (`None` and `""` are falsy). -/
def pyTruthyStrOpt (o : Option String) : Bool :=
  match o with
  | some s => s != ""
  | none => false

/-- Embedding of `TaskPlanner._is_step_necessary`. -/
def is_step_necessary (step : PlanStep) : Bool :=
  if step.type == "create_file" && containsL step.file_path.toList "screens/".toList then
    true
  else if step.file_path == "lib/main.dart" then true
  else if containsL step.file_path.toList "test/".toList then false
  else if containsL step.file_path.toList "utils/".toList
       || containsL step.file_path.toList "helpers/".toList then false
  else true

/-- Embedding of `TaskPlanner._is_dependency_necessary`. -/
def is_dependency_necessary (dep : Dependency) : Bool :=
  ["provider", "shared_preferences", "http"].contains (dep.package_name.getD "")

/-- Embedding of `TaskPlanner._simplify_plan`.  The simplified skeleton
starts from empty fields; `providers_to_initialize` is never copied from the
input. -/
def simplify_plan (task_plan : TaskPlanShape) : TaskPlanShape :=
  let steps := task_plan.steps.filter is_step_necessary
  let main_updates := task_plan.update_main_dart
  let imports_to_add :=
    if !main_updates.imports_to_add.isEmpty then main_updates.imports_to_add else []
  let initial_route :=
    if pyTruthyStrOpt main_updates.initial_route then main_updates.initial_route
    else none
  let routes_to_add :=
    if pyTruthyStrOpt main_updates.initial_route
        && !main_updates.routes_to_add.isEmpty then
      main_updates.routes_to_add
    else []
  let dependencies :=
    if !task_plan.dependencies.isEmpty then
      task_plan.dependencies.filter is_dependency_necessary
    else []
  ⟨steps, ⟨imports_to_add, routes_to_add, initial_route, []⟩, dependencies⟩

/-- A validated plan carrying an initial route but an empty route table. -/
def c6Plan : TaskPlanShape :=
  ⟨[⟨"create_file", "lib/screens/home_screen.dart", "Home screen"⟩],
   ⟨[], [], some "/home", []⟩, []⟩

/-- A validated plan carrying an initial route together with a route table. -/
def c6PlanW : TaskPlanShape :=
  ⟨[⟨"create_file", "lib/screens/a_screen.dart", "A screen"⟩],
   ⟨["package:app/screens/a_screen.dart"], [("/a", "AScreen()")], some "/a",
    ["SomeProvider()"]⟩, []⟩

/-! ## Const stripping (`utils.py`)

`strip_const_declarations` applies four `re.sub` passes.  Each regex starts
with the literal `const` followed by `\s+` and continues with character
classes that are disjoint from the literal that follows them, so the
backtracking regex engine behaves exactly like deterministic maximal munch;
the scanners below implement that.  The substitution driver mirrors
`re.sub`: scan left to right, replace each leftmost non-overlapping match,
resume after the match.  Fuel `length + 1` suffices because every match
consumes at least the six characters of `const` plus one space. -/

/-- Regex class `[A-Za-z0-9_]`. -/
def isIdentChar (c : Char) : Bool := c.isAlpha || c.isDigit || c = '_'

/-- Regex class `[A-Za-z0-9_<>]`. -/
def isTypeChar (c : Char) : Bool := isIdentChar c || c = '<' || c = '>'

/-- Match `const\s+` at the head of the list, returning what follows. -/
def matchConstWs (s : List Char) : Option (List Char) :=
  if "const".toList.isPrefixOf s then
    let t := s.drop 5
    let ws := t.takeWhile isPyWs
    if ws.isEmpty then none else some (t.drop ws.length)
  else none

/-- Pass 1: `const\s+([A-Z_][A-Za-z0-9_]*)\(` replaced by `\1(`. -/
def matchConstCtor (s : List Char) : Option (List Char × List Char) :=
  match matchConstWs s with
  | none => none
  | some u =>
    match u with
    | [] => none
    | c :: v =>
      if c.isUpper || c = '_' then
        let ident := v.takeWhile isIdentChar
        match v.drop ident.length with
        | '(' :: rest => some (c :: (ident ++ ['(']), rest)
        | _ => none
      else none

/-- Pass 2: `const\s+([A-Za-z0-9_<>]+\s+[A-Za-z0-9_]+\s*=)` replaced by `\1`. -/
def matchConstVarDecl (s : List Char) : Option (List Char × List Char) :=
  match matchConstWs s with
  | none => none
  | some u =>
    let ty := u.takeWhile isTypeChar
    if ty.isEmpty then none else
    let u1 := u.drop ty.length
    let ws1 := u1.takeWhile isPyWs
    if ws1.isEmpty then none else
    let u2 := u1.drop ws1.length
    let nm := u2.takeWhile isIdentChar
    if nm.isEmpty then none else
    let u3 := u2.drop nm.length
    let ws2 := u3.takeWhile isPyWs
    match u3.drop ws2.length with
    | '=' :: rest => some (ty ++ ws1 ++ nm ++ ws2 ++ ['='], rest)
    | _ => none

/-- Pass 3: `const\s+(\[|\{)` replaced by `\1`. -/
def matchConstCollection (s : List Char) : Option (List Char × List Char) :=
  match matchConstWs s with
  | none => none
  | some u =>
    match u with
    | '[' :: rest => some (['['], rest)
    | c :: rest => if c = Char.ofNat 123 then some ([Char.ofNat 123], rest) else none
    | [] => none

/-- Pass 4: `const\s+([A-Z_][A-Za-z0-9_]*\.[A-Za-z0-9_]+\()` replaced by `\1`. -/
def matchConstNamedCtor (s : List Char) : Option (List Char × List Char) :=
  match matchConstWs s with
  | none => none
  | some u =>
    match u with
    | [] => none
    | c :: v =>
      if c.isUpper || c = '_' then
        let ident := v.takeWhile isIdentChar
        match v.drop ident.length with
        | '.' :: w =>
          let nm := w.takeWhile isIdentChar
          if nm.isEmpty then none else
          match w.drop nm.length with
          | '(' :: rest =>
            some (c :: (ident ++ '.' :: (nm ++ ['('])), rest)
          | _ => none
        | _ => none
      else none

/-- `re.sub` driver: scan left to right, emitting replacements for leftmost
matches and resuming after each match. -/
def reSubFuel (matcher : List Char → Option (List Char × List Char)) :
    Nat → List Char → List Char
  | 0, s => s
  | _ + 1, [] => []
  | fuel + 1, c :: rest =>
    match matcher (c :: rest) with
    | some (repl, after) => repl ++ reSubFuel matcher fuel after
    | none => c :: reSubFuel matcher fuel rest

/-- Embedding of `utils.strip_const_declarations`: the four substitution
passes applied in source order. -/
def strip_const_declarations (code : String) : String :=
  let l0 := code.toList
  let l1 := reSubFuel matchConstCtor (l0.length + 1) l0
  let l2 := reSubFuel matchConstVarDecl (l1.length + 1) l1
  let l3 := reSubFuel matchConstCollection (l2.length + 1) l2
  let l4 := reSubFuel matchConstNamedCtor (l3.length + 1) l3
  String.mk l4

/-! ## Project context manager (`project_context_manager.py`)

The store is modelled by the on-disk tree `disk` (relative path → file
text) together with the tracked state.  `update_context` is the full
rescan: it tracks exactly the `.dart` files found on disk.  The module
references a global name `logger` in `delete_file` without ever importing
or defining it, so each `logger.…` call raises `NameError`; a raised
exception is modelled by the `Option String` component of the result. -/

structure PCMState where
  file_contents : List (String × String)
  project_structure : List String
deriving DecidableEq

/-- Embedding of `ProjectContextManager.update_context`: reset the tracked
mapping and structure to the `.dart` files on disk. -/
def update_context (disk : List (String × String)) : PCMState :=
  ⟨disk.filter (fun p => isSuffixL p.1.toList ".dart".toList),
   (disk.filter (fun p => isSuffixL p.1.toList ".dart".toList)).map (fun p => p.1)⟩

/-- Embedding of `ProjectContextManager.update_file`: the const-stripped
text is computed into `clean_content` but the original `content` is what is
written; a full rescan follows. -/
def update_file (disk : List (String × String)) (file_path content : String) :
    List (String × String) × PCMState :=
  let clean_content := strip_const_declarations content
  let disk' := setKey disk file_path content
  (disk', update_context disk')

/-- Embedding of `ProjectContextManager.get_file_content`. -/
def get_file_content (st : PCMState) (file_path : String) : String :=
  getFileD st.file_contents file_path ""

/-- Embedding of `ProjectContextManager.delete_file`.  In both branches the
first `logger` call raises `NameError` (the module never defines `logger`);
the handler re-raises, the `finally` block still rescans.  On the
existing-file branch the removal has already happened before the raise. -/
def delete_file (disk : List (String × String)) (file_path : String) :
    List (String × String) × PCMState × Option String :=
  if disk.any (fun p => p.1 == file_path) then
    let disk' := disk.filter (fun p => !(p.1 == file_path))
    (disk', update_context disk', some "NameError: logger is not defined")
  else
    (disk, update_context disk, some "NameError: logger is not defined")

/-! ## Dependency manifest updater (`TaskPlanner.update_pubspec_yaml`)

The source substitutes the regex `dependencies:.*?dev_dependencies:`
(DOTALL, lazy) by a freshly built section.  A match starts at the first
occurrence of `dependencies:` and, lazily, ends at the first following
occurrence of `dev_dependencies:`; if the first `dependencies:` has no
following `dev_dependencies:` then no later start can have one either, so
the leftmost-match search below is exactly the regex semantics.  Reading
the file and writing it back are the callers' I/O boundary; the function is
embedded as text → text. -/

def depsMarker : List Char := "dependencies:".toList

def devDepsMarker : List Char := "dev_dependencies:".toList

/-- Leftmost lazy match of `dependencies:.*?dev_dependencies:` as a
`(start, end)` pair of indices. -/
def findDepMatch (s : List Char) : Option (Nat × Nat) :=
  match firstIdx depsMarker s with
  | none => none
  | some i =>
    match firstIdx devDepsMarker (s.drop (i + depsMarker.length)) with
    | none => none
    | some k => some (i, i + depsMarker.length + k + devDepsMarker.length)

/-- `re.sub` for the dependency-section pattern (fuel-driven; every match
spans at least the two markers, so `length + 1` fuel always suffices). -/
def reSubDepsFuel (repl : List Char) : Nat → List Char → List Char
  | 0, s => s
  | fuel + 1, s =>
    match findDepMatch s with
    | none => s
    | some (i, e) => s.take i ++ repl ++ reSubDepsFuel repl fuel (s.drop e)

/-- The freshly built primary dependency section: the flutter sdk entry
followed by one line per new declaration that has a name and a version and
is not a reserved name. -/
def dependencies_section (new_dependencies : List Dependency) : List Char :=
  "dependencies:\n  flutter:\n    sdk: flutter\n".toList ++
  new_dependencies.foldl (fun acc dep =>
    let package_name := dep.package_name.getD ""
    let version := dep.version.getD ""
    if package_name != "" && version != ""
        && !(["flutter", "dart"].contains package_name) then
      acc ++ "  ".toList ++ package_name.toList ++ ": ".toList
        ++ version.toList ++ ['\n']
    else acc) []

/-- Embedding of `TaskPlanner.update_pubspec_yaml` (the text transform it
performs between reading and re-writing `pubspec.yaml`). -/
def update_pubspec_yaml (content : String) (new_dependencies : List Dependency) :
    String :=
  let repl := dependencies_section new_dependencies ++ '\n' :: devDepsMarker
  String.mk (reSubDepsFuel repl (content.toList.length + 1) content.toList)

/-! ## Entry-point reconciler (`ensure_structure_correct.py`) -/

/-- Python `line.strip().startswith('import')`. -/
def isImportLine (line : List Char) : Bool :=
  "import".toList.isPrefixOf (pyStripL line)

/-- The import-merging loop of `manage_dart_imports`: append each requested
line unless some present import line already contains it as a substring. -/
def addImports (import_lines : List (List Char)) (imports_to_add : List (List Char)) :
    List (List Char) :=
  imports_to_add.foldl
    (fun acc imp => if acc.any (fun line => containsL line imp) then acc
      else acc ++ [imp])
    import_lines

/-- Line-level body of `manage_dart_imports`: split into import lines and
code lines, merge the requested imports, re-emit sorted imports, a blank
line, then the code lines. -/
def manageLines (lines : List (List Char)) (imports_to_add : List (List Char)) :
    List (List Char) :=
  let import_lines := lines.filter isImportLine
  let code_lines := lines.filter (fun line => !isImportLine line)
  pySorted (addImports import_lines imports_to_add) ++ [[]] ++ code_lines

/-- Embedding of `manage_dart_imports`. -/
def manage_dart_imports (file_path : String) (imports_to_add : List String)
    (project_files : List (String × String)) : String :=
  let content := getFileD project_files file_path ""
  String.mk (List.intercalate ['\n']
    (manageLines (content.toList.splitOn '\n') (imports_to_add.map String.toList)))

/-- Markdown cleanup in `update_main_dart`:
`code.split('```dart')[-1].split('```')[0]` when a dart fence is present,
`code.split('```')[1]` when only a plain fence is present. -/
def extract_candidate (code : List Char) : List Char :=
  if containsL code "```dart".toList then
    ((splitOnL "```".toList ((splitOnL "```dart".toList code).getLastD [])).headD [])
  else if containsL code "```".toList then
    (splitOnL "```".toList code).getD 1 []
  else code

/-- The textual validation gate of `update_main_dart`. -/
def main_dart_gate (code : List Char) : Bool :=
  containsL code "import".toList && containsL code "MaterialApp".toList &&
  containsL code "class MyApp".toList && containsL code "Widget build".toList

/-- The bounded retry loop of `update_main_dart` over the attempt indices;
`responses n = none` models the collaborator call raising (caught by the
source's `except`). -/
def tryAttempts (responses : Nat → Option String) : List Nat → Option String
  | [] => none
  | n :: rest =>
    match responses n with
    | none => tryAttempts responses rest
    | some resp =>
      let code := extract_candidate resp.toList
      if main_dart_gate code then some (String.mk (pyStripL code))
      else tryAttempts responses rest

/-- Embedding of `update_main_dart` (module level, `ensure_structure_correct.py`).
The collaborator is the oracle `responses`; `project_files` is the tracked
map and `disk` the on-disk tree; the returned boolean records whether the
function fell through to the final warning.  The import handling before the
loop only feeds the prompt given to the collaborator. -/
def update_main_dart (responses : Nat → Option String)
    (project_files disk : List (String × String)) (updates : MainDartUpdates) :
    List (String × String) × List (String × String) × Bool :=
  let current_content := getFileD project_files "lib/main.dart" ""
  let imports_to_add :=
    (updates.imports_to_add.filter
      (fun imp => !containsL current_content.toList imp.toList)).map
      (fun imp => "import " ++ String.mk ['\x27'] ++ imp ++ String.mk ['\x27'] ++ ";")
  let _updated_content := manage_dart_imports "lib/main.dart" imports_to_add project_files
  match tryAttempts responses [0, 1, 2] with
  | some code =>
    (setKey project_files "lib/main.dart" code, setKey disk "lib/main.dart" code, false)
  | none => (project_files, disk, true)

/-! ## Response parser (`code_generation.py`) -/

/-- Result dict of `parse_json_response`.  `jsonFields` keeps the raw
`summary` value (the source serializes it with `json.dumps`); `emptyDict`
is the bare `return {}`. -/
inductive ParseResult where
  | jsonFields (code summary : JVal)
  | tasks (elems : List JVal)
  | extracted (code summary : String)
  | corrected (j : JVal)
  | emptyDict

/-- The `code` field of a manually extracted result, if that is what was
returned. -/
def codeOfExtracted : ParseResult → Option String
  | ParseResult.extracted c _ => some c
  | _ => none

/-- Embedding of `correct_json`: the collaborator's corrected text,
stripped, or the literal two-character empty-object text when the call
fails. -/
def correct_json (gen : Option String) : String :=
  match gen with
  | some resp => pyStrip resp
  | none => "\x7b\x7d"

/-- Embedding of `parse_json_response`.  `jsonLoads` is the `json.loads`
oracle (`none` models a `JSONDecodeError`), `correctGen` the collaborator
reply used by `correct_json`. -/
def parse_json_response (jsonLoads : String → Option JVal) (correctGen : Option String)
    (response : String) : ParseResult :=
  match jsonLoads response with
  | some (JVal.obj fields) =>
    ParseResult.jsonFields ((jLookup fields "code").getD (JVal.str ""))
      ((jLookup fields "summary").getD (JVal.str ""))
  | some (JVal.arr elems) => ParseResult.tasks elems
  | _ =>
    let r := response.toList
    let code_start : Int := pyFindL r "```".toList + 3
    let code_end : Int := pyRFindL r "```".toList
    let code :=
      if code_start != -1 && code_end != -1 then pyStripL (pySliceL r code_start code_end)
      else pyStripL r
    let summary_start : Int := pyRFindL r "```".toList + 3
    let summary0 := pyStripL (pySliceL r summary_start (r.length : Int))
    let summary :=
      if summary0.isEmpty then
        (let summary_end : Int := pyFindL r "```".toList
         if summary_end != -1 then pyStripL (pySliceL r 0 summary_end) else [])
      else summary0
    if code.isEmpty && summary.isEmpty then
      match jsonLoads (correct_json correctGen) with
      | some j => ParseResult.corrected j
      | none => ParseResult.emptyDict
    else ParseResult.extracted (String.mk code) (String.mk summary)

/-- Code span between the first fence (at `i`) and the last fence (at `j`),
as described by the specification. -/
def fencedCode (r : List Char) (i j : Int) : List Char :=
  pyStripL (pySliceL r (i + 3) j)

/-- Summary text as described by the specification: what follows the last
fence, falling back to what precedes the first fence. -/
def fencedSummary (r : List Char) (i j : Int) : List Char :=
  let after := pyStripL (pySliceL r (j + 3) (r.length : Int))
  if after.isEmpty then pyStripL (pySliceL r 0 i) else after

/-- A `json.loads` oracle that (like CPython) parses the two-character
empty-object text and rejects everything else; used to exercise the
correction path of `parse_json_response` on non-JSON input. -/
def jsonLoadsEmptyObj : String → Option JVal :=
  fun s => if s == "\x7b\x7d" then some (JVal.obj []) else none

/-! # Theorems -/

/-! ## Association-list lemmas -/

theorem find?_key_append (rest : List (String × String)) (k v : String)
    (h : ∀ p ∈ rest, (p.1 == k) = false) :
    List.find? (fun p => p.1 == k) (rest ++ [(k, v)]) = some (k, v) := by
  induction rest with
  | nil => simp [List.find?_cons]
  | cons p t ih =>
    simp only [List.cons_append, List.find?_cons, h p (by simp)]
    exact ih (fun q hq => h q (by simp [hq]))

theorem find?_key_map (files : List (String × String)) (k v : String)
    (h : files.any (fun p => p.1 == k) = true) :
    List.find? (fun p => p.1 == k)
      (files.map (fun p => if p.1 = k then (k, v) else p)) = some (k, v) := by
  induction files with
  | nil => simp at h
  | cons p t ih =>
    by_cases hp : p.1 = k
    · simp [List.find?_cons, hp]
    · have hp' : (p.1 == k) = false := by simpa using hp
      simp only [List.any_cons, hp', Bool.false_or] at h
      simp only [List.map_cons, if_neg hp, List.find?_cons, hp']
      exact ih h

theorem getFileD_setKey (files : List (String × String)) (k v d : String) :
    getFileD (setKey files k v) k d = v := by
  unfold setKey
  split
  · rename_i h
    simp [getFileD, find?_key_map files k v h]
  · rename_i h
    have h' : ∀ p ∈ files, (p.1 == k) = false := by
      intro p hp
      by_contra hc
      have hc' : (p.1 == k) = true := by
        revert hc; cases p.1 == k <;> simp
      exact h (List.any_eq_true.mpr ⟨p, hp, hc'⟩)
    simp [getFileD, find?_key_append files k v h']

theorem mem_setKey_self (files : List (String × String)) (k v : String) :
    (k, v) ∈ setKey files k v := by
  unfold setKey
  split
  · rename_i h
    obtain ⟨p, hp, hpk⟩ := List.any_eq_true.mp h
    refine List.mem_map.mpr ⟨p, hp, ?_⟩
    simp [show p.1 = k from by simpa using hpk]
  · exact List.mem_append.mpr (Or.inr (by simp))

theorem setKey_key_eq (files : List (String × String)) (k v : String) :
    ∀ p ∈ setKey files k v, p.1 = k → p = (k, v) := by
  unfold setKey
  split
  · rename_i h
    intro p hp hpk
    obtain ⟨q, hq, hfq⟩ := List.mem_map.mp hp
    by_cases hqk : q.1 = k
    · rw [if_pos (show (q.1 == k) = true by simpa using hqk)] at hfq
      exact hfq.symm
    · rw [if_neg (show ¬(q.1 == k) = true by simpa using hqk)] at hfq
      subst hfq
      exact absurd hpk hqk
  · rename_i h
    intro p hp hpk
    rcases List.mem_append.mp hp with hin | hin
    · exact absurd (List.any_eq_true.mpr ⟨p, hin, by simpa using hpk⟩) h
    · simpa using hin

theorem find?_filter_key (l : List (String × String)) (q : String × String → Bool)
    (k v : String) (hall : ∀ p ∈ l, p.1 = k → p = (k, v)) (hex : (k, v) ∈ l)
    (hq : q (k, v) = true) :
    List.find? (fun p => p.1 == k) (l.filter q) = some (k, v) := by
  induction l with
  | nil => simp at hex
  | cons p t ih =>
    by_cases hpk : p.1 = k
    · have hp := hall p (List.mem_cons_self p t) hpk
      subst hp
      simp [List.filter_cons, hq, List.find?_cons]
    · have hne : (k, v) ≠ p := fun he => hpk (by rw [← he])
      have hex' : (k, v) ∈ t := by
        rcases List.mem_cons.mp hex with he | he
        · exact absurd he hne
        · exact he
      have hall' : ∀ p' ∈ t, p'.1 = k → p' = (k, v) :=
        fun p' hp' => hall p' (List.mem_cons_of_mem _ hp')
      have hpk' : (p.1 == k) = false := by simpa using hpk
      by_cases hqp : q p = true
      · simp [List.filter_cons, hqp, List.find?_cons, hpk', ih hall' hex']
      · have hqp' : q p = false := by
          revert hqp; cases q p <;> simp
        simp [List.filter_cons, hqp', ih hall' hex']

/-! ## Claim C1 — task-plan validation -/

/-- Claim C1, counterexample: `validate_task_plan` accepts a plan whose
single step has type `rename_file` and carries neither a file path nor a
description, so acceptance does not imply per-step well-formedness. -/
theorem validate_task_plan_accepts_malformed_step :
    validate_task_plan c1Plan = true ∧ planStepsWellFormed c1Plan = false := by
  decide

/-- Claim C1, amended: `validate_task_plan` accepts a plan exactly when the
three required keys are present, `steps` is a non-empty list,
`update_main_dart` is an object and `dependencies` is a list; it performs
no validation of the individual step entries. -/
theorem validate_task_plan_iff (task_plan : List (String × JVal)) :
    validate_task_plan task_plan = true ↔
      (∃ l, jLookup task_plan "steps" = some (JVal.arr l) ∧ l ≠ []) ∧
      (∃ g, jLookup task_plan "update_main_dart" = some (JVal.obj g)) ∧
      (∃ d, jLookup task_plan "dependencies" = some (JVal.arr d)) := by
  unfold validate_task_plan
  constructor
  · intro h
    simp only [Bool.and_eq_true] at h
    obtain ⟨⟨⟨_, hsteps⟩, hmain⟩, hdeps⟩ := h
    refine ⟨?_, ?_, ?_⟩
    · split at hsteps
      · rename_i l heq
        exact ⟨l, heq, fun hl => by simp [hl] at hsteps⟩
      · exact absurd hsteps (by simp)
    · split at hmain
      · rename_i g heq
        exact ⟨g, heq⟩
      · exact absurd hmain (by simp)
    · split at hdeps
      · rename_i d heq
        exact ⟨d, heq⟩
      · exact absurd hdeps (by simp)
  · rintro ⟨⟨l, hl, hlne⟩, ⟨g, hg⟩, ⟨d, hd⟩⟩
    simp [hl, hg, hd, hlne]

/-! ## Claim C3 — revert on double structural failure -/

/-- Claim C3: with dart-analysis skipping disabled, if the structural
checker rejects both the input and the repaired candidate, then
`validate_and_fix_dart_code` returns the original content unchanged. -/
theorem validate_and_fix_reverts_on_double_failure
    (validate : String → Bool) (fixResp : Option String) (content file_path : String)
    (h1 : validate content = false)
    (h2 : validate (fix_dart_code fixResp content) = false) :
    validate_and_fix_dart_code false validate fixResp content file_path = content := by
  simp [validate_and_fix_dart_code, h1, h2]

/-- Claim C3, witness at a concrete checker, repair reply and content. -/
theorem validate_and_fix_reverts_on_double_failure_witness :
    validate_and_fix_dart_code false (fun _ => false) (some "fixed code")
      "void main()" "lib/main.dart" = "void main()" :=
  validate_and_fix_reverts_on_double_failure (fun _ => false) (some "fixed code")
    "void main()" "lib/main.dart" rfl rfl

/-! ## Claim C6 — initial route and route table pairing -/

/-- Claim C6, counterexample: on a plan carrying `initial_route = "/home"`
and an empty `routes_to_add`, the simplified plan keeps the initial route
while its route table is empty, so the two are not retained only as a
pair. -/
theorem simplify_plan_pair_cex :
    ¬(((simplify_plan c6Plan).update_main_dart.initial_route ≠ none) ↔
      ((simplify_plan c6Plan).update_main_dart.routes_to_add ≠ [])) := by
  decide

/-- Claim C6, amended: one direction holds — the simplified plan has a
non-empty `routes_to_add` only if it has a non-null `initial_route`
(routes are only retained under a retained initial route); an initial
route can however be retained with an empty route table. -/
theorem simplify_plan_routes_imply_initial (task_plan : TaskPlanShape)
    (h : (simplify_plan task_plan).update_main_dart.routes_to_add ≠ []) :
    (simplify_plan task_plan).update_main_dart.initial_route ≠ none := by
  simp only [simplify_plan] at h ⊢
  by_cases ht : pyTruthyStrOpt task_plan.update_main_dart.initial_route
  · simp only [ht, if_true]
    cases hi : task_plan.update_main_dart.initial_route with
    | none => rw [hi] at ht; simp [pyTruthyStrOpt] at ht
    | some s => simp
  · have ht' : pyTruthyStrOpt task_plan.update_main_dart.initial_route = false := by
      revert ht; cases pyTruthyStrOpt task_plan.update_main_dart.initial_route <;> simp
    simp [ht'] at h

/-- Claim C6, witness: a plan with both an initial route and routes keeps a
non-null initial route. -/
theorem simplify_plan_routes_imply_initial_witness :
    (simplify_plan c6PlanW).update_main_dart.initial_route ≠ none :=
  simplify_plan_routes_imply_initial c6PlanW (by decide)

/-! ## Claim C8 — delete of a missing file -/

/-- Claim C8: at a path that is not on disk, `delete_file` does not return
normally: the `logger.warning` call raises `NameError` (the module never
defines `logger`), the handler re-raises, and only the `finally` rescan
runs — the disk and the rescanned mapping still hold exactly the untouched
files. -/
theorem delete_file_missing_raises :
    delete_file [("lib/a.dart", "class A")] "lib/b.dart"
      = ([("lib/a.dart", "class A")],
         ⟨[("lib/a.dart", "class A")], ["lib/a.dart"]⟩,
         some "NameError: logger is not defined") := by
  decide

/-! ## Claim C9 — update_file stores the exact content -/

/-- Claim C9, counterexample: for a path that does not end in `.dart` the
rescan does not track the written file, so `get_file_content` does not
return the stored string even though the disk content is exact. -/
theorem update_file_nondart_cex :
    get_file_content (update_file [] "pubspec.yaml" "name: app").2 "pubspec.yaml"
      ≠ "name: app" := by
  decide

/-- Claim C9, amended: `update_file` writes exactly the given content to
disk (the const-stripped text computed into `clean_content` is discarded),
and for `.dart` paths — the only ones the rescan tracks —
`get_file_content` returns that same string afterwards. -/
theorem update_file_writes_exact (disk : List (String × String))
    (file_path content : String) :
    getFileD (update_file disk file_path content).1 file_path "" = content ∧
    (isSuffixL file_path.toList ".dart".toList = true →
      get_file_content (update_file disk file_path content).2 file_path = content) := by
  constructor
  · exact getFileD_setKey disk file_path content ""
  · intro hdart
    have hfind := find?_filter_key (setKey disk file_path content)
      (fun p => isSuffixL p.1.toList ".dart".toList) file_path content
      (setKey_key_eq disk file_path content)
      (mem_setKey_self disk file_path content) hdart
    have hchg : get_file_content (update_file disk file_path content).2 file_path
        = getFileD ((setKey disk file_path content).filter
            (fun p => isSuffixL p.1.toList ".dart".toList)) file_path "" := rfl
    rw [hchg]
    unfold getFileD
    rw [hfind]

/-- Claim C9, witness at a concrete `.dart` path whose content the
const-stripper would have altered. -/
theorem update_file_writes_exact_witness :
    getFileD (update_file [] "lib/a.dart" "const Foo()").1 "lib/a.dart" ""
        = "const Foo()" ∧
    get_file_content (update_file [] "lib/a.dart" "const Foo()").2 "lib/a.dart"
        = "const Foo()" :=
  ⟨(update_file_writes_exact [] "lib/a.dart" "const Foo()").1,
   (update_file_writes_exact [] "lib/a.dart" "const Foo()").2 (by decide)⟩

/-- Sanity: the discarded const-stripping transformation is not the
identity — it really rewrites constructor calls, variable declarations,
collection literals and named constructors. -/
theorem strip_const_declarations_nontrivial :
    strip_const_declarations "const Foo()" = "Foo()" ∧
    strip_const_declarations "const int x = 1;" = "int x = 1;" ∧
    strip_const_declarations "const [1, 2]" = "[1, 2]" ∧
    strip_const_declarations "const Foo.bar()" = "Foo.bar()" := by
  decide

/-! ## Claim C2 — pubspec merge is not a merge -/

/-- Claim C2, counterexample: merging an empty declaration list into a
manifest whose primary section holds `http: ^0.13.0` drops that
pre-existing line entirely — the section is rebuilt from scratch. -/
theorem update_pubspec_yaml_drops_existing_cex :
    update_pubspec_yaml "dependencies:\n  http: ^0.13.0\ndev_dependencies:\n" []
        = "dependencies:\n  flutter:\n    sdk: flutter\n\ndev_dependencies:\n" ∧
    containsStr
      (update_pubspec_yaml "dependencies:\n  http: ^0.13.0\ndev_dependencies:\n" [])
      "http" = false := by
  decide

theorem reSubDepsFuel_no_match (repl : List Char) (fuel : Nat) (s : List Char)
    (h : findDepMatch s = none) : reSubDepsFuel repl fuel s = s := by
  cases fuel with
  | zero => rfl
  | succ n => simp [reSubDepsFuel, h]

/-- Claim C2, amended: `update_pubspec_yaml` does not merge.  It replaces
the whole span from the first `dependencies:` marker through the first
following `dev_dependencies:` marker by the freshly built section (the
flutter sdk entry plus the new declarations), so every pre-existing line of
the primary section is dropped; only the text before the span and the text
from `dev_dependencies:` onward survive. -/
theorem update_pubspec_yaml_replaces_section (pre mid post : List Char)
    (new_dependencies : List Dependency)
    (h1 : firstIdx depsMarker (pre ++ depsMarker ++ mid ++ devDepsMarker ++ post)
        = some pre.length)
    (h2 : firstIdx devDepsMarker (mid ++ devDepsMarker ++ post) = some mid.length)
    (h3 : findDepMatch post = none) :
    update_pubspec_yaml
        (String.mk (pre ++ depsMarker ++ mid ++ devDepsMarker ++ post))
        new_dependencies
      = String.mk (pre ++ dependencies_section new_dependencies
          ++ '\n' :: devDepsMarker ++ post) := by
  have hassoc1 : pre ++ depsMarker ++ mid ++ devDepsMarker ++ post
      = (pre ++ depsMarker) ++ (mid ++ devDepsMarker ++ post) := by
    simp [List.append_assoc]
  have hdrop1 : (pre ++ depsMarker ++ mid ++ devDepsMarker ++ post).drop
      (pre.length + depsMarker.length) = mid ++ devDepsMarker ++ post := by
    rw [hassoc1, ← List.length_append pre depsMarker, List.drop_left]
  have hfm : findDepMatch (pre ++ depsMarker ++ mid ++ devDepsMarker ++ post)
      = some (pre.length,
          pre.length + depsMarker.length + mid.length + devDepsMarker.length) := by
    unfold findDepMatch
    rw [h1]
    simp only [hdrop1, h2]
  have htake : (pre ++ depsMarker ++ mid ++ devDepsMarker ++ post).take pre.length
      = pre := by
    have : pre ++ depsMarker ++ mid ++ devDepsMarker ++ post
        = pre ++ (depsMarker ++ mid ++ devDepsMarker ++ post) := by
      simp [List.append_assoc]
    rw [this, List.take_left]
  have hdrop2 : (pre ++ depsMarker ++ mid ++ devDepsMarker ++ post).drop
      (pre.length + depsMarker.length + mid.length + devDepsMarker.length)
      = post := by
    have : pre ++ depsMarker ++ mid ++ devDepsMarker ++ post
        = (pre ++ depsMarker ++ mid ++ devDepsMarker) ++ post := by
      simp [List.append_assoc]
    have hlen : pre.length + depsMarker.length + mid.length + devDepsMarker.length
        = (pre ++ depsMarker ++ mid ++ devDepsMarker).length := by
      simp only [List.length_append]
    rw [this, hlen, List.drop_left]
  show String.mk (reSubDepsFuel
      (dependencies_section new_dependencies ++ '\n' :: devDepsMarker)
      ((pre ++ depsMarker ++ mid ++ devDepsMarker ++ post).length + 1)
      (pre ++ depsMarker ++ mid ++ devDepsMarker ++ post)) = _
  refine congrArg String.mk ?_
  rw [reSubDepsFuel]
  simp only [hfm]
  rw [htake, hdrop2, reSubDepsFuel_no_match _ _ _ h3]
  simp [List.append_assoc]

/-- Claim C2, witness: a concrete manifest decomposition with one
pre-existing entry and one new declaration. -/
theorem update_pubspec_yaml_replaces_section_witness :
    update_pubspec_yaml
        (String.mk ("name: app\n".toList ++ depsMarker ++ "\n  http: any\n".toList
          ++ devDepsMarker ++ "\n  flutter_test:\n".toList))
        [⟨some "provider", some "^6.0.0"⟩]
      = String.mk ("name: app\n".toList
          ++ dependencies_section [⟨some "provider", some "^6.0.0"⟩]
          ++ '\n' :: devDepsMarker ++ "\n  flutter_test:\n".toList) :=
  update_pubspec_yaml_replaces_section "name: app\n".toList "\n  http: any\n".toList
    "\n  flutter_test:\n".toList [⟨some "provider", some "^6.0.0"⟩]
    (by decide) (by decide) (by decide)

/-! ## Claim C4 — entry-point update reverts when every attempt fails -/

theorem tryAttempts_none (responses : Nat → Option String) (l : List Nat)
    (h : ∀ n ∈ l, ∀ r, responses n = some r →
        main_dart_gate (extract_candidate r.toList) = false) :
    tryAttempts responses l = none := by
  induction l with
  | nil => rfl
  | cons n rest ih =>
    simp only [tryAttempts]
    cases hr : responses n with
    | none => exact ih (fun m hm => h m (List.mem_cons_of_mem _ hm))
    | some r =>
      simp only [h n (List.mem_cons_self _ _) r hr, Bool.false_eq_true, if_false]
      exact ih (fun m hm => h m (List.mem_cons_of_mem _ hm))

/-- Claim C4: if none of the three collaborator attempts yields a candidate
passing the textual gate (an import, `MaterialApp`, `class MyApp`,
`Widget build`), then `update_main_dart` leaves the tracked map and the
disk untouched and falls through to its warning; a collaborator exception
(`responses n = none`) is caught by the loop. -/
theorem update_main_dart_all_attempts_fail (responses : Nat → Option String)
    (project_files disk : List (String × String)) (updates : MainDartUpdates)
    (h : ∀ n, n < 3 → ∀ r, responses n = some r →
        main_dart_gate (extract_candidate r.toList) = false) :
    update_main_dart responses project_files disk updates
      = (project_files, disk, true) := by
  have htry : tryAttempts responses [0, 1, 2] = none := by
    refine tryAttempts_none responses [0, 1, 2] ?_
    intro n hn
    have hn3 : n < 3 := by
      have hn' : n = 0 ∨ n = 1 ∨ n = 2 := by simpa using hn
      omega
    exact h n hn3
  simp only [update_main_dart, htry]

/-- Claim C4, witness: a collaborator that always answers with text failing
the gate leaves the entry file exactly as it was. -/
theorem update_main_dart_all_attempts_fail_witness :
    update_main_dart (fun _ => some "no widget here")
        [("lib/main.dart", "original entry")] [("lib/main.dart", "original entry")]
        ⟨["package:flutter/material.dart"], [], none, []⟩
      = ([("lib/main.dart", "original entry")], [("lib/main.dart", "original entry")],
         true) :=
  update_main_dart_all_attempts_fail (fun _ => some "no widget here")
    [("lib/main.dart", "original entry")] [("lib/main.dart", "original entry")]
    ⟨["package:flutter/material.dart"], [], none, []⟩
    (by
      intro n hn r hr
      injection hr with hr
      rw [← hr]
      decide)

/-! ## Claim C5 — the import step is not idempotent -/

theorem isPrefixOf_self (l : List Char) : l.isPrefixOf l = true := by
  induction l with
  | nil => rfl
  | cons c t ih => simp [List.isPrefixOf, ih]

theorem containsL_self (s : List Char) : containsL s s = true := by
  cases s with
  | nil => rfl
  | cons c t => simp [containsL, containsSubAux, isPrefixOf_self]

theorem not_p_of_mem_splitOnP {α : Type} (p : α → Bool) (xs : List α) :
    ∀ l ∈ xs.splitOnP p, ∀ a ∈ l, p a = false := by
  induction xs with
  | nil =>
    intro l hl a ha
    rw [List.splitOnP_nil] at hl
    simp only [List.mem_singleton] at hl
    subst hl
    simp at ha
  | cons x t ih =>
    intro l hl a ha
    rw [List.splitOnP_cons] at hl
    by_cases hx : p x = true
    · rw [if_pos hx] at hl
      rcases List.mem_cons.mp hl with rfl | hl'
      · simp at ha
      · exact ih l hl' a ha
    · rw [if_neg hx] at hl
      obtain ⟨hd, tl, hsplit⟩ := List.exists_cons_of_ne_nil (List.splitOnP_ne_nil p t)
      rw [hsplit] at hl
      simp only [List.modifyHead] at hl
      rcases List.mem_cons.mp hl with rfl | hl'
      · rcases List.mem_cons.mp ha with rfl | ha'
        · simpa using hx
        · exact ih hd (by rw [hsplit]; exact List.mem_cons_self _ _) a ha'
      · exact ih l (by rw [hsplit]; exact List.mem_cons_of_mem _ hl') a ha

theorem not_mem_of_mem_splitOn (x : Char) (s : List Char) :
    ∀ l ∈ s.splitOn x, x ∉ l := by
  intro l hl hmem
  have hp := not_p_of_mem_splitOnP (fun a => a == x) s l
    (by simpa [List.splitOn] using hl) x hmem
  simp at hp

theorem mem_insertSorted (a m : List Char) (l : List (List Char)) :
    m ∈ insertSorted a l ↔ m = a ∨ m ∈ l := by
  induction l with
  | nil => simp [insertSorted]
  | cons b bs ih =>
    simp only [insertSorted]
    split
    · simp only [List.mem_cons, ih]
      tauto
    · simp only [List.mem_cons]

theorem mem_foldl_insertSorted (l : List (List Char)) (acc : List (List Char))
    (m : List Char) :
    m ∈ l.foldl (fun acc a => insertSorted a acc) acc ↔ m ∈ acc ∨ m ∈ l := by
  induction l generalizing acc with
  | nil => simp
  | cons a t ih =>
    simp only [List.foldl_cons]
    rw [ih, mem_insertSorted]
    simp only [List.mem_cons]
    tauto

theorem mem_pySorted (l : List (List Char)) (m : List Char) :
    m ∈ pySorted l ↔ m ∈ l := by
  unfold pySorted
  rw [mem_foldl_insertSorted]
  simp

theorem addImports_cons (acc : List (List Char)) (a : List Char)
    (rest : List (List Char)) :
    addImports acc (a :: rest)
      = addImports (if acc.any (fun line => containsL line a) then acc
          else acc ++ [a]) rest := rfl

theorem mem_addImports_step (acc : List (List Char)) (a m : List Char)
    (hm : m ∈ acc) :
    m ∈ (if acc.any (fun line => containsL line a) then acc else acc ++ [a]) := by
  split
  · exact hm
  · exact List.mem_append_left _ hm

theorem addImports_subset (toAdd : List (List Char)) (acc : List (List Char))
    (m : List Char) (hm : m ∈ acc) : m ∈ addImports acc toAdd := by
  induction toAdd generalizing acc with
  | nil => exact hm
  | cons a rest ih =>
    rw [addImports_cons]
    exact ih _ (mem_addImports_step acc a m hm)

theorem addImports_covers (toAdd : List (List Char)) (acc : List (List Char)) :
    ∀ imp ∈ toAdd, ∃ m ∈ addImports acc toAdd, containsL m imp = true := by
  induction toAdd generalizing acc with
  | nil => simp
  | cons a rest ih =>
    intro imp hmem
    rw [addImports_cons]
    rcases List.mem_cons.mp hmem with rfl | hmem'
    · by_cases hc : acc.any (fun line => containsL line imp) = true
      · obtain ⟨m, hm, hcm⟩ := List.any_eq_true.mp hc
        refine ⟨m, addImports_subset rest _ m ?_, hcm⟩
        rw [if_pos hc]
        exact hm
      · refine ⟨imp, addImports_subset rest _ imp ?_, containsL_self imp⟩
        rw [if_neg hc]
        exact List.mem_append_right _ (List.mem_singleton.mpr rfl)
    · exact ih _ imp hmem'

theorem mem_addImports (toAdd acc : List (List Char)) (m : List Char)
    (hm : m ∈ addImports acc toAdd) : m ∈ acc ∨ m ∈ toAdd := by
  induction toAdd generalizing acc with
  | nil => exact Or.inl hm
  | cons a rest ih =>
    rw [addImports_cons] at hm
    rcases ih _ hm with hstep | hrest
    · revert hstep
      split
      · exact fun hstep => Or.inl hstep
      · intro hstep
        rcases List.mem_append.mp hstep with h1 | h2
        · exact Or.inl h1
        · simp only [List.mem_singleton] at h2
          exact Or.inr (by simp [h2])
    · exact Or.inr (List.mem_cons_of_mem _ hrest)

theorem addImports_noop (toAdd acc : List (List Char))
    (h : ∀ imp ∈ toAdd, acc.any (fun line => containsL line imp) = true) :
    addImports acc toAdd = acc := by
  induction toAdd with
  | nil => rfl
  | cons a rest ih =>
    rw [addImports_cons, if_pos (h a (List.mem_cons_self _ _))]
    exact ih (fun imp hmem => h imp (List.mem_cons_of_mem _ hmem))

theorem manageLines_of_covered (M toAdd : List (List Char))
    (hcover : ∀ imp ∈ toAdd,
      (M.filter isImportLine).any (fun line => containsL line imp) = true) :
    manageLines M toAdd = manageLines M [] := by
  simp only [manageLines]
  rw [addImports_noop toAdd (M.filter isImportLine) hcover]
  rfl

theorem manage_dart_imports_eq (fp : String) (imps : List String)
    (pf : List (String × String)) :
    manage_dart_imports fp imps pf
      = String.mk (List.intercalate ['\n']
          (manageLines ((getFileD pf fp "").toList.splitOn '\n')
            (imps.map String.toList))) := rfl

/-- Claim C5, counterexample: even with no imports to add, a second
application of the import step is not the identity on the first
application's output — every application inserts a fresh blank separator
line between the import block and the body. -/
theorem manage_dart_imports_not_idempotent :
    manage_dart_imports "lib/main.dart" []
        [("lib/main.dart",
          manage_dart_imports "lib/main.dart" [] [("lib/main.dart", "")])]
      ≠ manage_dart_imports "lib/main.dart" [] [("lib/main.dart", "")] := by
  decide

/-- Claim C5, amended: the import step is idempotent on the import set but
not on the whole text.  When every requested import is a single line whose
stripped text starts with `import`, running the step a second time with the
same `imports_to_add` adds nothing: it behaves exactly like a second run
with an empty import list, whose only effect is the unconditional
re-split/re-join that inserts one more blank line after the import block
(so byte-for-byte idempotence fails, as the counterexample shows). -/
theorem manage_dart_imports_second_run (project_files : List (String × String))
    (file_path : String) (imports_to_add : List String)
    (h : ∀ imp ∈ imports_to_add, isImportLine imp.toList = true ∧ '\n' ∉ imp.toList) :
    manage_dart_imports file_path imports_to_add
        (setKey project_files file_path
          (manage_dart_imports file_path imports_to_add project_files))
      = manage_dart_imports file_path []
        (setKey project_files file_path
          (manage_dart_imports file_path imports_to_add project_files)) := by
  have htoAdd : ∀ l ∈ imports_to_add.map String.toList,
      isImportLine l = true ∧ '\n' ∉ l := by
    intro l hl
    obtain ⟨imp, himp, rfl⟩ := List.mem_map.mp hl
    exact h imp himp
  have hlines : ∀ l ∈ (getFileD project_files file_path "").toList.splitOn '\n',
      '\n' ∉ l :=
    not_mem_of_mem_splitOn '\n' (getFileD project_files file_path "").toList
  have hM_nl : ∀ l ∈ manageLines
      ((getFileD project_files file_path "").toList.splitOn '\n')
      (imports_to_add.map String.toList), '\n' ∉ l := by
    intro l hl
    simp only [manageLines] at hl
    rcases List.mem_append.mp hl with h1 | h2
    · rcases List.mem_append.mp h1 with h1a | h1b
      · rcases mem_addImports _ _ l ((mem_pySorted _ l).mp h1a) with hIL | htA
        · exact hlines l (List.mem_of_mem_filter hIL)
        · exact (htoAdd l htA).2
      · simp only [List.mem_singleton] at h1b
        subst h1b
        simp
    · exact hlines l (List.mem_of_mem_filter h2)
  have hM_ne : manageLines
      ((getFileD project_files file_path "").toList.splitOn '\n')
      (imports_to_add.map String.toList) ≠ [] := by
    simp only [manageLines]
    simp
  have hsplit : (List.intercalate ['\n']
      (manageLines ((getFileD project_files file_path "").toList.splitOn '\n')
        (imports_to_add.map String.toList))).splitOn '\n'
      = manageLines ((getFileD project_files file_path "").toList.splitOn '\n')
          (imports_to_add.map String.toList) :=
    List.splitOn_intercalate _ '\n' hM_nl hM_ne
  have hcover : ∀ imp ∈ imports_to_add.map String.toList,
      ((manageLines ((getFileD project_files file_path "").toList.splitOn '\n')
          (imports_to_add.map String.toList)).filter isImportLine).any
        (fun line => containsL line imp) = true := by
    intro imp hi
    obtain ⟨m, hm, hc⟩ := addImports_covers (imports_to_add.map String.toList)
      (((getFileD project_files file_path "").toList.splitOn '\n').filter isImportLine)
      imp hi
    refine List.any_eq_true.mpr ⟨m, ?_, hc⟩
    have hmM : m ∈ manageLines
        ((getFileD project_files file_path "").toList.splitOn '\n')
        (imports_to_add.map String.toList) := by
      simp only [manageLines]
      exact List.mem_append_left _
        (List.mem_append_left _ ((mem_pySorted _ m).mpr hm))
    have hmImp : isImportLine m = true := by
      rcases mem_addImports _ _ m hm with hIL | htA
      · exact (List.mem_filter.mp hIL).2
      · exact (htoAdd m htA).1
    exact List.mem_filter.mpr ⟨hmM, hmImp⟩
  rw [manage_dart_imports_eq file_path imports_to_add
        (setKey project_files file_path
          (manage_dart_imports file_path imports_to_add project_files)),
      manage_dart_imports_eq file_path []
        (setKey project_files file_path
          (manage_dart_imports file_path imports_to_add project_files)),
      manage_dart_imports_eq file_path imports_to_add project_files,
      getFileD_setKey]
  have htl : (String.mk (List.intercalate ['\n']
      (manageLines ((getFileD project_files file_path "").toList.splitOn '\n')
        (imports_to_add.map String.toList)))).toList
      = List.intercalate ['\n']
          (manageLines ((getFileD project_files file_path "").toList.splitOn '\n')
            (imports_to_add.map String.toList)) := rfl
  rw [htl, hsplit, manageLines_of_covered _ _ hcover]
  rfl

/-- Claim C5, witness for the amended statement at a concrete file and
a concrete import list. -/
theorem manage_dart_imports_second_run_witness :
    manage_dart_imports "lib/main.dart" ["import b;"]
        [("lib/main.dart",
          manage_dart_imports "lib/main.dart" ["import b;"]
            [("lib/main.dart", "import a;\nvoid main()")])]
      = manage_dart_imports "lib/main.dart" []
        [("lib/main.dart",
          manage_dart_imports "lib/main.dart" ["import b;"]
            [("lib/main.dart", "import a;\nvoid main()")])] := by
  have happ := manage_dart_imports_second_run
    [("lib/main.dart", "import a;\nvoid main()")] "lib/main.dart" ["import b;"]
    (by
      intro imp himp
      rcases List.mem_singleton.mp himp with rfl
      exact ⟨by decide, by decide⟩)
  have hset : setKey [("lib/main.dart", "import a;\nvoid main()")] "lib/main.dart"
      (manage_dart_imports "lib/main.dart" ["import b;"]
        [("lib/main.dart", "import a;\nvoid main()")])
      = [("lib/main.dart",
          manage_dart_imports "lib/main.dart" ["import b;"]
            [("lib/main.dart", "import a;\nvoid main()")])] := by decide
  rw [hset] at happ
  exact happ

/-! ## Claim C7 — manual extraction in parse_json_response -/

theorem lastIdxFrom_of_no_first (pat : List Char) :
    ∀ (s : List Char) (i : Nat) (acc : Option Nat),
      firstIdxFrom pat s i = none → lastIdxFrom pat s i acc = acc := by
  intro s
  induction s with
  | nil =>
    intro i acc h
    have hp : pat.isEmpty = false := by
      by_contra hc
      have hc' : pat.isEmpty = true := by revert hc; cases pat.isEmpty <;> simp
      simp [firstIdxFrom, hc'] at h
    simp [lastIdxFrom, hp]
  | cons c rest ih =>
    intro i acc h
    by_cases hpre : pat.isPrefixOf (c :: rest) = true
    · simp [firstIdxFrom, hpre] at h
    · have hpre' : pat.isPrefixOf (c :: rest) = false := by
        revert hpre; cases pat.isPrefixOf (c :: rest) <;> simp
      simp only [firstIdxFrom, hpre', Bool.false_eq_true, if_false] at h
      simp only [lastIdxFrom, hpre', Bool.false_eq_true, if_false]
      exact ih _ _ h

theorem pyRFindL_of_pyFindL_neg (s pat : List Char) (h : pyFindL s pat = -1) :
    pyRFindL s pat = -1 := by
  unfold pyFindL at h
  unfold pyRFindL
  cases hf : firstIdx pat s with
  | some n => rw [hf] at h; simp at h
  | none =>
    have hf' : firstIdxFrom pat s 0 = none := hf
    rw [lastIdxFrom_of_no_first pat s 0 none hf']

theorem parse_json_response_nofence (jsonLoads : String → Option JVal)
    (correctGen : Option String) (response : String)
    (hjson : jsonLoads response = none)
    (hfind : pyFindL response.toList "```".toList = -1)
    (hne : pyStripL response.toList ≠ []) :
    ∃ smry, parse_json_response jsonLoads correctGen response
      = ParseResult.extracted (String.mk (pyStripL response.toList)) smry := by
  have hrfind := pyRFindL_of_pyFindL_neg response.toList "```".toList hfind
  have hcodeE : (pyStripL response.toList).isEmpty = false := by
    revert hne; cases pyStripL response.toList <;> simp
  unfold parse_json_response
  rw [hjson]
  norm_num at hfind hrfind hcodeE
  norm_num [hfind, hrfind, hcodeE]

theorem parse_json_response_fences (jsonLoads : String → Option JVal)
    (correctGen : Option String) (response : String) (i j : Int)
    (hjson : jsonLoads response = none)
    (hfind : pyFindL response.toList "```".toList = i)
    (hrfind : pyRFindL response.toList "```".toList = j)
    (hi : 0 ≤ i) (hj : 0 ≤ j) (hij : i ≠ j)
    (hne : ¬(fencedCode response.toList i j = []
      ∧ fencedSummary response.toList i j = [])) :
    parse_json_response jsonLoads correctGen response
      = ParseResult.extracted (String.mk (fencedCode response.toList i j))
          (String.mk (fencedSummary response.toList i j)) := by
  unfold parse_json_response
  rw [hjson]
  unfold fencedCode fencedSummary at hne ⊢
  have hi3 : ¬(i + 3 = -1) := by omega
  have hj1 : ¬(j = -1) := by omega
  have hi1 : ¬(i = -1) := by omega
  norm_num at hfind hrfind hne ⊢
  norm_num [hfind, hrfind, hi3, hj1, hi1] at hne ⊢
  tauto

/-- Claim C7, counterexample: on the non-JSON, fence-free input `" "` the
extracted code and summary are both empty, so the function runs its
JSON-correction fallback and returns its result (here the empty object)
instead of the stripped input as the `code` field. -/
theorem parse_json_response_correction_cex :
    pyFindL " ".toList "```".toList = -1 ∧
    codeOfExtracted (parse_json_response jsonLoadsEmptyObj none " ") = none := by
  decide

/-- Claim C7, amended: for a response the JSON decoder rejects, provided
the manual extraction yields a non-empty code or summary (otherwise the
JSON-correction fallback takes over): with no fence present the whole
stripped response is returned as the code field; with first fence at `i`
and last fence at `j ≠ i`, the code is the span between them and the
summary is the stripped text after the last fence, falling back to the
text before the first fence. -/
theorem parse_json_response_manual_extraction (jsonLoads : String → Option JVal)
    (correctGen : Option String) (response : String)
    (hjson : jsonLoads response = none) :
    (pyFindL response.toList "```".toList = -1 → pyStripL response.toList ≠ [] →
      ∃ smry, parse_json_response jsonLoads correctGen response
        = ParseResult.extracted (String.mk (pyStripL response.toList)) smry) ∧
    (∀ i j : Int, pyFindL response.toList "```".toList = i →
      pyRFindL response.toList "```".toList = j → 0 ≤ i → 0 ≤ j → i ≠ j →
      ¬(fencedCode response.toList i j = []
        ∧ fencedSummary response.toList i j = []) →
      parse_json_response jsonLoads correctGen response
        = ParseResult.extracted (String.mk (fencedCode response.toList i j))
            (String.mk (fencedSummary response.toList i j))) :=
  ⟨fun hfind hne =>
    parse_json_response_nofence jsonLoads correctGen response hjson hfind hne,
   fun i j hfind hrfind hi hj hij hne =>
    parse_json_response_fences jsonLoads correctGen response i j hjson hfind
      hrfind hi hj hij hne⟩

/-- Claim C7, witness: the fenced branch evaluated on a concrete response
with distinct fences. -/
theorem parse_json_response_manual_extraction_witness :
    parse_json_response (fun _ => none) none "x```y```z"
      = ParseResult.extracted (String.mk (fencedCode "x```y```z".toList 1 5))
          (String.mk (fencedSummary "x```y```z".toList 1 5)) :=
  (parse_json_response_manual_extraction (fun _ => none) none "x```y```z" rfl).2
    1 5 (by decide) (by decide) (by decide) (by decide) (by decide) (by decide)

/-! ## Claim C10 — providers are never carried over -/

/-- Claim C10: the simplified plan always has an empty
`providers_to_initialize`, whatever the input plan listed. -/
theorem simplify_plan_providers_empty (task_plan : TaskPlanShape) :
    (simplify_plan task_plan).update_main_dart.providers_to_initialize = [] := rfl

end FlutterBot
